import Mathlib

set_option maxRecDepth 100000

/-!
Verification of the docker-volume-webdavfs volume driver (main.go, the
webdavfs variant).  The driver keeps a registry of named volumes; each
volume records its mount options, a mountpoint derived from the MD5 hash
of the URL, and a reference count (`connections`).  The operations
Create/Remove/Mount/Unmount are embedded below as pure functions on an
explicit driver state; the external mount executor and the filesystem are
modelled by outcome parameters, and ghost counters record how often the
executors and the mountpoint-directory check are invoked.
-/

namespace MD5

/-- Truncate to a 32-bit word, as Go's uint32 arithmetic does. -/
def w32 (x : Nat) : Nat := x % 4294967296

/-- 32-bit left rotation (input assumed < 2^32). -/
def rotl (x n : Nat) : Nat := w32 ((x <<< n) ||| (x >>> (32 - n)))

/-- 32-bit bitwise complement (input assumed < 2^32). -/
def nnot (x : Nat) : Nat := x ^^^ 0xffffffff

/-- The 64 MD5 round constants, K[i] = floor(2^32 * abs(sin(i+1))) (RFC 1321). -/
def K : List Nat :=
  [0xd76aa478, 0xe8c7b756, 0x242070db, 0xc1bdceee,
   0xf57c0faf, 0x4787c62a, 0xa8304613, 0xfd469501,
   0x698098d8, 0x8b44f7af, 0xffff5bb1, 0x895cd7be,
   0x6b901122, 0xfd987193, 0xa679438e, 0x49b40821,
   0xf61e2562, 0xc040b340, 0x265e5a51, 0xe9b6c7aa,
   0xd62f105d, 0x02441453, 0xd8a1e681, 0xe7d3fbc8,
   0x21e1cde6, 0xc33707d6, 0xf4d50d87, 0x455a14ed,
   0xa9e3e905, 0xfcefa3f8, 0x676f02d9, 0x8d2a4c8a,
   0xfffa3942, 0x8771f681, 0x6d9d6122, 0xfde5380c,
   0xa4beea44, 0x4bdecfa9, 0xf6bb4b60, 0xbebfbc70,
   0x289b7ec6, 0xeaa127fa, 0xd4ef3085, 0x04881d05,
   0xd9d4d039, 0xe6db99e5, 0x1fa27cf8, 0xc4ac5665,
   0xf4292244, 0x432aff97, 0xab9423a7, 0xfc93a039,
   0x655b59c3, 0x8f0ccc92, 0xffeff47d, 0x85845dd1,
   0x6fa87e4f, 0xfe2ce6e0, 0xa3014314, 0x4e0811a1,
   0xf7537e82, 0xbd3af235, 0x2ad7d2bb, 0xeb86d391]

/-- The per-round left-rotation amounts (RFC 1321). -/
def S : List Nat :=
  [7, 12, 17, 22, 7, 12, 17, 22, 7, 12, 17, 22, 7, 12, 17, 22,
   5, 9, 14, 20, 5, 9, 14, 20, 5, 9, 14, 20, 5, 9, 14, 20,
   4, 11, 16, 23, 4, 11, 16, 23, 4, 11, 16, 23, 4, 11, 16, 23,
   6, 10, 15, 21, 6, 10, 15, 21, 6, 10, 15, 21, 6, 10, 15, 21]

/-- The four-word MD5 chaining state. -/
structure MDState where
  a : Nat
  b : Nat
  c : Nat
  d : Nat
deriving DecidableEq

/-- Initial MD5 chaining values (RFC 1321). -/
def initState : MDState := ⟨0x67452301, 0xefcdab89, 0x98badcfe, 0x10325476⟩

/-- The g-th 32-bit little-endian word of a 64-byte block. -/
def word (block : List Nat) (g : Nat) : Nat :=
  block.getD (4 * g) 0 + 256 * block.getD (4 * g + 1) 0 +
    65536 * block.getD (4 * g + 2) 0 + 16777216 * block.getD (4 * g + 3) 0

/-- One of the 64 MD5 operations on the chaining state. -/
def md5Step (M : Nat → Nat) (st : MDState) (i : Nat) : MDState :=
  let f :=
    if i < 16 then (st.b &&& st.c) ||| (nnot st.b &&& st.d)
    else if i < 32 then (st.d &&& st.b) ||| (nnot st.d &&& st.c)
    else if i < 48 then st.b ^^^ st.c ^^^ st.d
    else st.c ^^^ (st.b ||| nnot st.d)
  let g :=
    if i < 16 then i
    else if i < 32 then (5 * i + 1) % 16
    else if i < 48 then (3 * i + 5) % 16
    else (7 * i) % 16
  let x := w32 (f + st.a + K.getD i 0 + M g)
  ⟨st.d, w32 (st.b + rotl x (S.getD i 0)), st.b, st.c⟩

/-- Process one 64-byte block: 64 operations, then add into the state mod 2^32. -/
def md5Block (st : MDState) (block : List Nat) : MDState :=
  let r := (List.range 64).foldl (md5Step (word block)) st
  ⟨w32 (st.a + r.a), w32 (st.b + r.b), w32 (st.c + r.c), w32 (st.d + r.d)⟩

/-- Split a byte list into 64-byte chunks; the fuel bounds the number
of chunks (each step strips at least one byte, so l.length suffices). -/
def chunks64Go : Nat → List Nat → List (List Nat)
  | 0, _ => []
  | _, [] => []
  | fuel + 1, x :: xs => ((x :: xs).take 64) :: chunks64Go fuel ((x :: xs).drop 64)

/-- Split a byte list into 64-byte chunks. -/
def chunks64 (l : List Nat) : List (List Nat) := chunks64Go l.length l

/-- The 8-byte little-endian encoding of the bit length of a message. -/
def lengthBytes (len : Nat) : List Nat :=
  (List.range 8).map (fun i => ((8 * len) >>> (8 * i)) % 256)

/-- MD5 padding: a 0x80 byte, zeros to 56 mod 64, then the 64-bit bit length. -/
def padMessage (msg : List Nat) : List Nat :=
  msg ++ [0x80] ++ List.replicate ((119 - msg.length % 64) % 64) 0 ++
    lengthBytes msg.length

/-- MD5 of a byte sequence, as the final chaining state. -/
def md5Bytes (msg : List Nat) : MDState :=
  (chunks64 (padMessage msg)).foldl md5Block initState

/-- UTF-8 encoding of a single character, as Go's []byte(string) produces. -/
def utf8EncodeChar (c : Char) : List Nat :=
  let n := c.toNat
  if n < 0x80 then [n]
  else if n < 0x800 then [0xc0 ||| (n >>> 6), 0x80 ||| (n &&& 0x3f)]
  else if n < 0x10000 then
    [0xe0 ||| (n >>> 12), 0x80 ||| ((n >>> 6) &&& 0x3f), 0x80 ||| (n &&& 0x3f)]
  else
    [0xf0 ||| (n >>> 18), 0x80 ||| ((n >>> 12) &&& 0x3f),
     0x80 ||| ((n >>> 6) &&& 0x3f), 0x80 ||| (n &&& 0x3f)]

/-- UTF-8 bytes of a string, as Go's []byte(string). -/
def utf8Bytes (s : String) : List Nat :=
  (s.data.map utf8EncodeChar).flatten

/-- A hex digit character, lowercase as Go's %x verb prints. -/
def hexDigit (n : Nat) : Char :=
  if n < 10 then Char.ofNat (48 + n) else Char.ofNat (87 + n)

/-- Two lowercase hex digits of one byte. -/
def byteHex (b : Nat) : String :=
  String.mk [hexDigit (b / 16), hexDigit (b % 16)]

/-- The four little-endian bytes of a 32-bit word. -/
def wordLEBytes (w : Nat) : List Nat :=
  [w % 256, (w >>> 8) % 256, (w >>> 16) % 256, (w >>> 24) % 256]

/-- Lowercase hex MD5 digest of a string, as fmt.Sprintf("%x", md5.Sum([]byte(s))). -/
def md5Hex (s : String) : String :=
  let st := md5Bytes (utf8Bytes s)
  String.join ((wordLEBytes st.a ++ wordLEBytes st.b ++ wordLEBytes st.c ++
    wordLEBytes st.d).map byteHex)

end MD5

instance {ε α : Type} [DecidableEq ε] [DecidableEq α] : DecidableEq (Except ε α) :=
  fun x y =>
    match x, y with
    | .ok a, .ok b =>
      if h : a = b then isTrue (by rw [h]) else isFalse (by intro hc; cases hc; exact h rfl)
    | .error a, .error b =>
      if h : a = b then isTrue (by rw [h]) else isFalse (by intro hc; cases hc; exact h rfl)
    | .ok _, .error _ => isFalse (by intro hc; cases hc)
    | .error _, .ok _ => isFalse (by intro hc; cases hc)

/-- A volume record, mirroring the Go struct webdavfsVolume (main.go).
The exported fields are persisted by json.Marshal; `connections` is
unexported in Go and hence transient.  Go's int is modelled as Int
(the counts involved never approach overflow). -/
structure webdavfsVolume where
  URL : String
  Username : String
  Password : String
  Conf : String
  UID : String
  GID : String
  FileMode : String
  DirMode : String
  Ro : Bool
  Rw : Bool
  Exec : Bool
  Suid : Bool
  Grpid : Bool
  Netdev : Bool
  Mountpoint : String
  connections : Int
deriving DecidableEq

/-- The zero value of webdavfsVolume, as Go's &webdavfsVolume{} in Create. -/
def emptyVolume : webdavfsVolume :=
  ⟨"", "", "", "", "", "", "", "", false, false, false, false, false, false, "", 0⟩

/-- One constructor per distinct error return site of the driver's
operations (each logError call in Create/Remove/Mount/Unmount). -/
inductive DriverError where
  | unknownOption (val : String)
  | urlRequired
  | urlMalformed
  | notFound (name : String)
  | volumeBusy (name : String)
  | removeAllFailed
  | lstatFailed
  | mkdirFailed
  | notADirectory (mp : String)
  | mountExecFailed
  | unmountExecFailed
deriving DecidableEq

/-- Outcome of the os.Lstat/os.MkdirAll block at the head of Mount:
the mountpoint may not exist (and MkdirAll succeed or fail), Lstat may
fail with a non-not-exist error, or the path exists as a directory or
as a non-directory. -/
inductive FsOutcome where
  | notExistMkdirOk
  | notExistMkdirFail
  | lstatErr
  | existsDir
  | existsNotDir
deriving DecidableEq

/-- The driver state, mirroring the Go struct webdavfsDriver: the root
directory for mountpoints and the name-keyed volume map (as an
association list; Go map insertion replaces the entry with the same
key).  `mountCalls`, `unmountCalls` and `fsChecks` are ghost
instrumentation counting invocations of the mount executor, the unmount
executor, and the mountpoint-directory check/creation block. -/
structure webdavfsDriver where
  root : String
  volumes : List (String × webdavfsVolume)
  mountCalls : Nat
  unmountCalls : Nat
  fsChecks : Nat
deriving DecidableEq

/-- Map lookup d.volumes[name] on the association list. -/
def findVol : List (String × webdavfsVolume) → String → Option webdavfsVolume
  | [], _ => none
  | (n, v) :: rest, name => if n = name then some v else findVol rest name

/-- Map assignment d.volumes[name] = v: replace the entry if present,
else append. -/
def insertVol : List (String × webdavfsVolume) → String → webdavfsVolume →
    List (String × webdavfsVolume)
  | [], name, v => [(name, v)]
  | (n, w) :: rest, name, v =>
    if n = name then (name, v) :: rest else (n, w) :: insertVol rest name v

/-- In-place mutation of the record a Go map lookup returned a pointer
to: update the entry with the given key, leave the rest unchanged. -/
def updateVol : List (String × webdavfsVolume) → String → webdavfsVolume →
    List (String × webdavfsVolume)
  | [], _, _ => []
  | (n, w) :: rest, name, v =>
    if n = name then (n, v) :: rest else (n, w) :: updateVol rest name v

/-- Map deletion delete(d.volumes, name). -/
def eraseVol : List (String × webdavfsVolume) → String →
    List (String × webdavfsVolume)
  | [], _ => []
  | (n, w) :: rest, name =>
    if n = name then rest else (n, w) :: eraseVol rest name

/-- Go's url.Parse succeeds on the URLs this driver sees unless the
string contains ASCII control characters; the rarer failure modes (bad
port digits, bad userinfo) are elided — no claim depends on which
malformed URLs are rejected, only on the accept/reject branch in Create. -/
def urlParseOk (s : String) : Bool :=
  s.data.all (fun c => 0x20 ≤ c.toNat && c.toNat ≠ 0x7f)

/-- filepath.Join for an already-clean absolute directory and a
slash-free component, as used for d.root and the hex digest. -/
def filepathJoin (dir name : String) : String := dir ++ "/" ++ name

/-- The option-parsing loop of Create (the switch over r.Options).
Note the source matches the key "_netdav", not "_netdev", and reports
the unknown option's VALUE (fmt's %q of val) in the error. -/
def parseOpts : webdavfsVolume → List (String × String) →
    Except DriverError webdavfsVolume
  | v, [] => .ok v
  | v, (key, val) :: rest =>
    match key with
    | "url" => parseOpts { v with URL := val } rest
    | "username" => parseOpts { v with Username := val } rest
    | "password" => parseOpts { v with Password := val } rest
    | "conf" => parseOpts { v with Conf := val } rest
    | "uid" => parseOpts { v with UID := val } rest
    | "gid" => parseOpts { v with GID := val } rest
    | "file_mode" => parseOpts { v with FileMode := val } rest
    | "dir_mode" => parseOpts { v with DirMode := val } rest
    | "ro" => parseOpts { v with Ro := true } rest
    | "rw" => parseOpts { v with Rw := true } rest
    | "exec" => parseOpts { v with Exec := true } rest
    | "suid" => parseOpts { v with Suid := true } rest
    | "grpid" => parseOpts { v with Grpid := true } rest
    | "_netdav" => parseOpts { v with Netdev := true } rest
    | _ => .error (.unknownOption val)

/-- webdavfsDriver.Create: parse options, require a parseable url,
derive the mountpoint from the MD5 hex of the URL under d.root, and
insert (overwriting any record of the same name).  The state is
unchanged on error. -/
def Create (d : webdavfsDriver) (name : String) (opts : List (String × String)) :
    webdavfsDriver × Except DriverError Unit :=
  match parseOpts emptyVolume opts with
  | .error e => (d, .error e)
  | .ok v =>
    if v.URL = "" then (d, .error .urlRequired)
    else if ¬ urlParseOk v.URL then (d, .error .urlMalformed)
    else
      let v := { v with Mountpoint := filepathJoin d.root (MD5.md5Hex v.URL) }
      ({ d with volumes := insertVol d.volumes name v }, .ok ())

/-- webdavfsDriver.Remove: not-found on a missing name, busy while
connections != 0, then os.RemoveAll (outcome removeAllOk) and deletion
of the record. -/
def Remove (d : webdavfsDriver) (name : String) (removeAllOk : Bool) :
    webdavfsDriver × Except DriverError Unit :=
  match findVol d.volumes name with
  | none => (d, .error (.notFound name))
  | some v =>
    if v.connections ≠ 0 then (d, .error (.volumeBusy name))
    else if ¬ removeAllOk then (d, .error .removeAllFailed)
    else ({ d with volumes := eraseVol d.volumes name }, .ok ())

/-- webdavfsDriver.Mount: when connections == 0, run the
directory-check block (outcome fs) and then the mount executor
(outcome mountOk); otherwise skip both.  On success increment
connections and return the mountpoint. -/
def Mount (d : webdavfsDriver) (name : String) (fs : FsOutcome) (mountOk : Bool) :
    webdavfsDriver × Except DriverError String :=
  match findVol d.volumes name with
  | none => (d, .error (.notFound name))
  | some v =>
    if v.connections = 0 then
      match fs with
      | .notExistMkdirFail =>
        ({ d with fsChecks := d.fsChecks + 1 }, .error .mkdirFailed)
      | .lstatErr =>
        ({ d with fsChecks := d.fsChecks + 1 }, .error .lstatFailed)
      | .existsNotDir =>
        ({ d with fsChecks := d.fsChecks + 1 }, .error (.notADirectory v.Mountpoint))
      | .notExistMkdirOk | .existsDir =>
        if ¬ mountOk then
          ({ d with fsChecks := d.fsChecks + 1, mountCalls := d.mountCalls + 1 },
           .error .mountExecFailed)
        else
          ({ d with fsChecks := d.fsChecks + 1, mountCalls := d.mountCalls + 1,
                    volumes :=
                      updateVol d.volumes name { v with connections := v.connections + 1 } },
           .ok v.Mountpoint)
    else
      ({ d with volumes :=
          updateVol d.volumes name { v with connections := v.connections + 1 } },
       .ok v.Mountpoint)

/-- webdavfsDriver.Unmount: decrement connections first; if the result
is <= 0, invoke the unmount executor (outcome unmountOk) — on failure
return the error with the decremented count left in place, on success
clamp the count to 0. -/
def Unmount (d : webdavfsDriver) (name : String) (unmountOk : Bool) :
    webdavfsDriver × Except DriverError Unit :=
  match findVol d.volumes name with
  | none => (d, .error (.notFound name))
  | some v =>
    if v.connections - 1 ≤ 0 then
      if ¬ unmountOk then
        ({ d with unmountCalls := d.unmountCalls + 1,
                  volumes :=
                    updateVol d.volumes name { v with connections := v.connections - 1 } },
         .error .unmountExecFailed)
      else
        ({ d with unmountCalls := d.unmountCalls + 1,
                  volumes := updateVol d.volumes name { v with connections := 0 } },
         .ok ())
    else
      ({ d with volumes :=
          updateVol d.volumes name { v with connections := v.connections - 1 } },
       .ok ())

/-- One registry call together with the outcomes of its external
collaborators (executor and filesystem). -/
inductive Op where
  | create (name : String) (opts : List (String × String))
  | remove (name : String) (removeAllOk : Bool)
  | mount (name : String) (fs : FsOutcome) (mountOk : Bool)
  | unmount (name : String) (unmountOk : Bool)
deriving DecidableEq

/-- The state transition of one call (the response is discarded). -/
def stepOp (d : webdavfsDriver) : Op → webdavfsDriver
  | .create n o => (Create d n o).1
  | .remove n ok => (Remove d n ok).1
  | .mount n fs ok => (Mount d n fs ok).1
  | .unmount n ok => (Unmount d n ok).1

/-- Run a call sequence from a state. -/
def runOps (d : webdavfsDriver) (ops : List Op) : webdavfsDriver :=
  ops.foldl stepOp d

/-- The state newwebdavfsDriver("/mnt") builds when no state file
exists: root "/mnt/volumes" and an empty volume map. -/
def initDriver : webdavfsDriver := ⟨"/mnt/volumes", [], 0, 0, 0⟩

/-- The fields of a volume record that json.Marshal emits: exactly the
exported (capitalised) fields; the unexported `connections` is omitted
by Go's encoding/json. -/
structure persistedVolume where
  URL : String
  Username : String
  Password : String
  Conf : String
  UID : String
  GID : String
  FileMode : String
  DirMode : String
  Ro : Bool
  Rw : Bool
  Exec : Bool
  Suid : Bool
  Grpid : Bool
  Netdev : Bool
  Mountpoint : String
deriving DecidableEq

/-- json.Marshal of one volume record: the exported fields. -/
def marshalVolume (v : webdavfsVolume) : persistedVolume :=
  ⟨v.URL, v.Username, v.Password, v.Conf, v.UID, v.GID, v.FileMode, v.DirMode,
   v.Ro, v.Rw, v.Exec, v.Suid, v.Grpid, v.Netdev, v.Mountpoint⟩

/-- json.Unmarshal of one persisted record into a fresh webdavfsVolume:
the exported fields are restored and the unexported `connections` keeps
its zero value. -/
def unmarshalVolume (p : persistedVolume) : webdavfsVolume :=
  ⟨p.URL, p.Username, p.Password, p.Conf, p.UID, p.GID, p.FileMode, p.DirMode,
   p.Ro, p.Rw, p.Exec, p.Suid, p.Grpid, p.Netdev, p.Mountpoint, 0⟩

/-- webdavfsDriver.saveState: json.Marshal of the name-keyed volume map. -/
def saveState (vols : List (String × webdavfsVolume)) :
    List (String × persistedVolume) :=
  vols.map (fun p => (p.1, marshalVolume p.2))

/-- The json.Unmarshal step of newwebdavfsDriver reading a saved state
file back into d.volumes. -/
def loadState (ps : List (String × persistedVolume)) :
    List (String × webdavfsVolume) :=
  ps.map (fun p => (p.1, unmarshalVolume p.2))

/-- The URL of the named volume, when present. -/
def urlOf (d : webdavfsDriver) (name : String) : Option String :=
  (findVol d.volumes name).map (fun v => v.URL)

/-- The mountpoint of the named volume, when present. -/
def mountpointOf (d : webdavfsDriver) (name : String) : Option String :=
  (findVol d.volumes name).map (fun v => v.Mountpoint)

/-- The reference count of the named volume, when present. -/
def connectionsOf (d : webdavfsDriver) (name : String) : Option Int :=
  (findVol d.volumes name).map (fun v => v.connections)

/-- Whether an Op is an unmount whose executor invocation would succeed;
non-unmount calls count as true. -/
def opUnmountOk : Op → Bool
  | .unmount _ ok => ok
  | _ => true

/-- A concrete state: the volume "v" freshly created (refCount 0). -/
def exD0 : webdavfsDriver := (Create initDriver "v" [("url", "https://h/p")]).1

/-- A concrete state: "v" created and mounted once (refCount 1). -/
def exD1 : webdavfsDriver := (Mount exD0 "v" .notExistMkdirOk true).1

/-- A concrete state: "v" created, then an Unmount whose executor failed
(refCount -1). -/
def exDneg : webdavfsDriver := (Unmount exD0 "v" false).1

/-- The record of "v" in exD1. -/
def exV1 : webdavfsVolume := (findVol exD1.volumes "v").getD emptyVolume

/-- The record of "v" in exDneg. -/
def exVneg : webdavfsVolume := (findVol exDneg.volumes "v").getD emptyVolume

/-- A concrete call sequence whose unmount-executor invocations all
succeed: create, first mount, reused mount with failing outcomes
(skipped), one unmount. -/
def exOps : List Op :=
  [.create "v" [("url", "https://h/p")], .mount "v" .notExistMkdirOk true,
   .mount "v" .existsDir false, .unmount "v" true]

/-- The record of "v" after running exOps from the initial driver. -/
def exVfinal : webdavfsVolume :=
  (findVol (runOps initDriver exOps).volumes "v").getD emptyVolume

/-- Every entry of insertVol is the inserted pair or an old entry. -/
theorem mem_insertVol {l : List (String × webdavfsVolume)} {name : String}
    {v : webdavfsVolume} {p : String × webdavfsVolume}
    (h : p ∈ insertVol l name v) : p = (name, v) ∨ p ∈ l := by
  induction l with
  | nil =>
    simp only [insertVol, List.mem_singleton] at h
    exact Or.inl h
  | cons q t ih =>
    rw [insertVol] at h
    by_cases hq : q.1 = name
    · simp only [hq, if_pos rfl] at h
      rcases List.mem_cons.mp h with h1 | h1
      · exact Or.inl h1
      · exact Or.inr (List.mem_cons_of_mem _ h1)
    · simp only [if_neg hq] at h
      rcases List.mem_cons.mp h with h1 | h1
      · exact Or.inr (h1 ▸ List.mem_cons_self _ _)
      · rcases ih h1 with h2 | h2
        · exact Or.inl h2
        · exact Or.inr (List.mem_cons_of_mem _ h2)

/-- Every entry of updateVol carries the new record or is an old entry. -/
theorem mem_updateVol {l : List (String × webdavfsVolume)} {name : String}
    {v : webdavfsVolume} {p : String × webdavfsVolume}
    (h : p ∈ updateVol l name v) : p.2 = v ∨ p ∈ l := by
  induction l with
  | nil => simp [updateVol] at h
  | cons q t ih =>
    rw [updateVol] at h
    by_cases hq : q.1 = name
    · simp only [hq, if_pos rfl] at h
      rcases List.mem_cons.mp h with h1 | h1
      · exact Or.inl (by rw [h1])
      · exact Or.inr (List.mem_cons_of_mem _ h1)
    · simp only [if_neg hq] at h
      rcases List.mem_cons.mp h with h1 | h1
      · exact Or.inr (h1 ▸ List.mem_cons_self _ _)
      · rcases ih h1 with h2 | h2
        · exact Or.inl h2
        · exact Or.inr (List.mem_cons_of_mem _ h2)

/-- Every entry of eraseVol is an old entry. -/
theorem mem_eraseVol {l : List (String × webdavfsVolume)} {name : String}
    {p : String × webdavfsVolume} (h : p ∈ eraseVol l name) : p ∈ l := by
  induction l with
  | nil => simp [eraseVol] at h
  | cons q t ih =>
    rw [eraseVol] at h
    by_cases hq : q.1 = name
    · simp only [hq, if_pos rfl] at h
      exact List.mem_cons_of_mem _ h
    · simp only [if_neg hq] at h
      rcases List.mem_cons.mp h with h1 | h1
      · exact h1 ▸ List.mem_cons_self _ _
      · exact List.mem_cons_of_mem _ (ih h1)

/-- Lookup after insertVol at the inserted name gives the new record. -/
theorem findVol_insertVol_self (l : List (String × webdavfsVolume))
    (name : String) (v : webdavfsVolume) :
    findVol (insertVol l name v) name = some v := by
  induction l with
  | nil => simp [insertVol, findVol]
  | cons q t ih =>
    rw [insertVol]
    by_cases hq : q.1 = name
    · simp [hq, findVol]
    · simp only [if_neg hq, findVol, hq, if_false]
      exact ih

/-- Lookup after updateVol at the updated name gives the new record,
provided the name was present. -/
theorem findVol_updateVol_self {l : List (String × webdavfsVolume)}
    {name : String} {w : webdavfsVolume} (v : webdavfsVolume)
    (h : findVol l name = some w) :
    findVol (updateVol l name v) name = some v := by
  induction l with
  | nil => simp [findVol] at h
  | cons q t ih =>
    rw [updateVol]
    by_cases hq : q.1 = name
    · simp [hq, findVol]
    · rw [findVol] at h
      simp only [hq, if_false] at h
      simp only [if_neg hq, findVol, hq, if_false]
      exact ih h

/-- Lookup misses when the name is not among the keys. -/
theorem findVol_eq_none {l : List (String × webdavfsVolume)} {name : String}
    (h : name ∉ l.map Prod.fst) : findVol l name = none := by
  induction l with
  | nil => rfl
  | cons q t ih =>
    simp only [List.map_cons, List.mem_cons] at h
    push_neg at h
    rw [findVol, if_neg (fun hq => h.1 hq.symm)]
    exact ih h.2

/-- Lookup after eraseVol at the erased name misses, when the keys are
distinct (as they are in every reachable map). -/
theorem findVol_eraseVol_self {l : List (String × webdavfsVolume)} {name : String}
    (hnd : (l.map Prod.fst).Nodup) : findVol (eraseVol l name) name = none := by
  induction l with
  | nil => rfl
  | cons q t ih =>
    simp only [List.map_cons, List.nodup_cons] at hnd
    rw [eraseVol]
    by_cases hq : q.1 = name
    · rw [if_pos hq]
      exact findVol_eq_none (hq ▸ hnd.1)
    · rw [if_neg hq, findVol, if_neg hq]
      exact ih hnd.2

/-- A successful lookup exhibits a map entry under the looked-up name. -/
theorem findVol_mem {l : List (String × webdavfsVolume)} {name : String}
    {v : webdavfsVolume} (h : findVol l name = some v) : (name, v) ∈ l := by
  induction l with
  | nil => simp [findVol] at h
  | cons q t ih =>
    rw [findVol] at h
    by_cases hq : q.1 = name
    · rw [if_pos hq] at h
      cases h
      subst hq
      exact List.mem_cons_self _ _
    · rw [if_neg hq] at h
      exact List.mem_cons_of_mem _ (ih h)

/-- The option-parsing loop never touches the reference count. -/
theorem parseOpts_connections {v v' : webdavfsVolume} {opts : List (String × String)}
    (h : parseOpts v opts = .ok v') : v'.connections = v.connections := by
  induction opts generalizing v with
  | nil =>
    unfold parseOpts at h
    cases h
    rfl
  | cons q t ih =>
    obtain ⟨key, val⟩ := q
    unfold parseOpts at h
    split at h
    all_goals first
      | (have hx := ih h; exact hx)
      | cases h

/-- Create preserves nonnegativity of all reference counts: a new
record starts at 0 and error paths leave the map unchanged. -/
theorem Create_nonneg {d : webdavfsDriver} {n : String} {o : List (String × String)}
    (hd : ∀ p ∈ d.volumes, 0 ≤ p.2.connections) :
    ∀ p ∈ (Create d n o).1.volumes, 0 ≤ p.2.connections := by
  intro p hp
  unfold Create at hp
  split at hp
  · exact hd p hp
  · rename_i v hpar
    split at hp
    · exact hd p hp
    · split at hp
      · exact hd p hp
      · simp only at hp
        rcases mem_insertVol hp with h | h
        · have hc := parseOpts_connections hpar
          rw [h]
          simpa using le_of_eq hc.symm
        · exact hd p h

/-- Remove preserves nonnegativity: it only ever drops an entry. -/
theorem Remove_nonneg {d : webdavfsDriver} {n : String} {b : Bool}
    (hd : ∀ p ∈ d.volumes, 0 ≤ p.2.connections) :
    ∀ p ∈ (Remove d n b).1.volumes, 0 ≤ p.2.connections := by
  intro p hp
  unfold Remove at hp
  split at hp
  · exact hd p hp
  · split at hp
    · exact hd p hp
    · split at hp
      · exact hd p hp
      · exact hd p (mem_eraseVol hp)

/-- Mount preserves nonnegativity: it only ever increments a count. -/
theorem Mount_nonneg {d : webdavfsDriver} {n : String} {fs : FsOutcome} {b : Bool}
    (hd : ∀ p ∈ d.volumes, 0 ≤ p.2.connections) :
    ∀ p ∈ (Mount d n fs b).1.volumes, 0 ≤ p.2.connections := by
  intro p hp
  unfold Mount at hp
  split at hp
  · exact hd p hp
  · rename_i v hv
    have hv0 : 0 ≤ v.connections := hd (n, v) (findVol_mem hv)
    split at hp
    · split at hp
      all_goals try exact hd p hp
      all_goals split at hp
      all_goals try exact hd p hp
      all_goals
        rcases mem_updateVol hp with h | h
      all_goals try exact hd p h
      all_goals rw [h]
      all_goals show (0 : Int) ≤ v.connections + 1
      all_goals omega
    · rcases mem_updateVol hp with h | h
      · rw [h]
        show (0 : Int) ≤ v.connections + 1
        omega
      · exact hd p h

/-- Unmount with a succeeding unmount executor preserves nonnegativity:
the count is clamped to 0 when the decrement reaches or passes zero. -/
theorem Unmount_nonneg {d : webdavfsDriver} {n : String}
    (hd : ∀ p ∈ d.volumes, 0 ≤ p.2.connections) :
    ∀ p ∈ (Unmount d n true).1.volumes, 0 ≤ p.2.connections := by
  intro p hp
  unfold Unmount at hp
  split at hp
  · exact hd p hp
  · rename_i v hv
    rw [if_neg (show ¬¬(true = true) by simp)] at hp
    split at hp
    · rcases mem_updateVol hp with h | h
      · rw [h]
      · exact hd p h
    · rename_i hc
      rcases mem_updateVol hp with h | h
      · rw [h]
        show (0 : Int) ≤ v.connections - 1
        omega
      · exact hd p h

/-- Each call with a succeeding unmount executor preserves
nonnegativity of every reference count. -/
theorem stepOp_nonneg {d : webdavfsDriver} {op : Op}
    (hop : opUnmountOk op = true)
    (hd : ∀ p ∈ d.volumes, 0 ≤ p.2.connections) :
    ∀ p ∈ (stepOp d op).volumes, 0 ≤ p.2.connections := by
  cases op with
  | create n o => exact Create_nonneg hd
  | remove n b => exact Remove_nonneg hd
  | mount n fs b => exact Mount_nonneg hd
  | unmount n b =>
    have hb : b = true := by simpa [opUnmountOk] using hop
    subst hb
    exact Unmount_nonneg hd

/-- Nonnegativity of all reference counts is preserved along any call
sequence whose unmount-executor invocations succeed. -/
theorem runOps_nonneg {ops : List Op} :
    ∀ {d : webdavfsDriver}, (∀ op ∈ ops, opUnmountOk op = true) →
    (∀ p ∈ d.volumes, 0 ≤ p.2.connections) →
    ∀ p ∈ (runOps d ops).volumes, 0 ≤ p.2.connections := by
  induction ops with
  | nil => intro d _ hd; exact hd
  | cons op t ih =>
    intro d h hd
    exact ih (fun o ho => h o (List.mem_cons_of_mem _ ho))
      (stepOp_nonneg (h op (List.mem_cons_self _ _)) hd)

/-- C1 (amended): for every state reached from the initial registry by a
Create/Remove/Mount/Unmount sequence in which every unmount-executor
invocation succeeds (the mount executor and the filesystem free to fail),
every volume's reference count is nonnegative.  (The original claim, with
unmount failures allowed, is refuted by refCount_negative_reachable.) -/
theorem refCount_nonneg_of_unmount_execs_ok (ops : List Op)
    (h : ∀ op ∈ ops, opUnmountOk op = true) :
    ∀ p ∈ (runOps initDriver ops).volumes, 0 ≤ p.2.connections :=
  runOps_nonneg h (by intro p hp; simp [initDriver] at hp)

/-- C1 counterexample: creating "v" and then calling Unmount once with a
failing unmount executor leaves "v" with reference count -1, so the
claimed invariant fails on a reachable state. -/
theorem refCount_negative_reachable :
    connectionsOf (runOps initDriver
      [.create "v" [("url", "https://h/p")], .unmount "v" false]) "v" = some (-1) ∧
    ¬ (∀ p ∈ (runOps initDriver
        [.create "v" [("url", "https://h/p")], .unmount "v" false]).volumes,
        0 ≤ p.2.connections) := by
  constructor
  · decide
  · decide

/-- C1 witness: after the concrete run exOps (all unmount-executor
invocations succeeding) the count of "v" is nonnegative. -/
theorem refCount_nonneg_of_unmount_execs_ok_witness :
    0 ≤ exVfinal.connections :=
  refCount_nonneg_of_unmount_execs_ok exOps (by decide)
    ("v", exVfinal) (by decide)

/-- Evaluating Unmount with a succeeding executor on a volume whose
decremented count is at most 0. -/
theorem Unmount_ok_clamp {d : webdavfsDriver} {name : String} {v : webdavfsVolume}
    (hv : findVol d.volumes name = some v) (hc : v.connections - 1 ≤ 0) :
    Unmount d name true =
      ({ d with unmountCalls := d.unmountCalls + 1,
                volumes := updateVol d.volumes name { v with connections := 0 } },
       .ok ()) := by
  unfold Unmount
  rw [hv]
  simp only [if_pos hc]
  simp

/-- Evaluating Unmount with a failing executor on a volume whose
decremented count is at most 0: the decremented count is left behind. -/
theorem Unmount_fail_eval {d : webdavfsDriver} {name : String} {v : webdavfsVolume}
    (hv : findVol d.volumes name = some v) (hc : v.connections - 1 ≤ 0) :
    Unmount d name false =
      ({ d with unmountCalls := d.unmountCalls + 1,
                volumes :=
                  updateVol d.volumes name { v with connections := v.connections - 1 } },
       .error .unmountExecFailed) := by
  unfold Unmount
  rw [hv]
  simp only [if_pos hc]
  simp

/-- Evaluating Unmount on a volume whose decremented count stays
positive: no executor invocation. -/
theorem Unmount_pos_eval {d : webdavfsDriver} {name : String} {v : webdavfsVolume}
    {b : Bool} (hv : findVol d.volumes name = some v) (hc : ¬ v.connections - 1 ≤ 0) :
    Unmount d name b =
      ({ d with volumes :=
          updateVol d.volumes name { v with connections := v.connections - 1 } },
       .ok ()) := by
  unfold Unmount
  rw [hv]
  simp only [if_neg hc]

/-- Evaluating Mount on a volume whose count is nonzero: the directory
block and the executor are skipped, the count incremented. -/
theorem Mount_skip_eval {d : webdavfsDriver} {name : String} {v : webdavfsVolume}
    {fs : FsOutcome} {b : Bool} (hv : findVol d.volumes name = some v)
    (hc : v.connections ≠ 0) :
    Mount d name fs b =
      ({ d with volumes :=
          updateVol d.volumes name { v with connections := v.connections + 1 } },
       .ok v.Mountpoint) := by
  unfold Mount
  rw [hv]
  simp only [if_neg hc]

/-- Evaluating Mount on a volume with count 0, a usable mountpoint
directory and a succeeding executor. -/
theorem Mount_first_ok_eval {d : webdavfsDriver} {name : String} {v : webdavfsVolume}
    {fs : FsOutcome} (hv : findVol d.volumes name = some v)
    (hc : v.connections = 0) (hfs : fs = .notExistMkdirOk ∨ fs = .existsDir) :
    Mount d name fs true =
      ({ d with fsChecks := d.fsChecks + 1, mountCalls := d.mountCalls + 1,
                volumes :=
                  updateVol d.volumes name { v with connections := v.connections + 1 } },
       .ok v.Mountpoint) := by
  unfold Mount
  rw [hv]
  simp only [if_pos hc]
  rcases hfs with h | h
  all_goals subst h
  all_goals simp

/-- Evaluating Create when option parsing, the url-presence check and
url.Parse all pass. -/
theorem Create_ok_eval {d : webdavfsDriver} {name : String}
    {opts : List (String × String)} {pv : webdavfsVolume}
    (hp : parseOpts emptyVolume opts = .ok pv)
    (hurl : pv.URL ≠ "") (hok : urlParseOk pv.URL = true) :
    Create d name opts =
      ({ d with volumes := (insertVol d.volumes name
          { pv with Mountpoint := filepathJoin d.root (MD5.md5Hex pv.URL) }) },
       .ok ()) := by
  unfold Create
  rw [hp]
  simp only [if_neg hurl]
  rw [if_neg (show ¬¬(urlParseOk pv.URL = true) by simp [hok])]

/-- A successful Create comes from a successful parse with a nonempty,
parseable url, and inserts the parsed record with derived mountpoint. -/
theorem Create_ok_shape {d : webdavfsDriver} {name : String}
    {opts : List (String × String)} (h : (Create d name opts).2 = .ok ()) :
    ∃ pv, parseOpts emptyVolume opts = .ok pv ∧ pv.URL ≠ "" ∧
      urlParseOk pv.URL = true ∧
      (Create d name opts).1.volumes = insertVol d.volumes name
        { pv with Mountpoint := filepathJoin d.root (MD5.md5Hex pv.URL) } := by
  unfold Create at h ⊢
  split at h
  · cases h
  · rename_i pv hp
    split at h
    · cases h
    · rename_i hurl
      split at h
      · cases h
      · rename_i hok
        refine ⟨pv, hp, hurl, by simpa using hok, ?_⟩
        simp only [if_neg hurl, if_neg hok]

/-- Evaluating Remove on a volume with nonzero count: busy error, state
unchanged. -/
theorem Remove_busy_eval {d : webdavfsDriver} {name : String} {v : webdavfsVolume}
    {b : Bool} (hv : findVol d.volumes name = some v) (hc : v.connections ≠ 0) :
    Remove d name b = (d, .error (.volumeBusy name)) := by
  unfold Remove
  rw [hv]
  simp only [if_pos hc]

/-- Evaluating Remove on a volume with count 0 and successful mountpoint
deletion: the record is dropped. -/
theorem Remove_ok_eval {d : webdavfsDriver} {name : String} {v : webdavfsVolume}
    (hv : findVol d.volumes name = some v) (hc : v.connections = 0) :
    Remove d name true = ({ d with volumes := eraseVol d.volumes name }, .ok ()) := by
  unfold Remove
  rw [hv]
  simp [hc]

/-- C2 (amended): from reference count 1, two Unmount calls with a
succeeding unmount executor both succeed and leave the count at 0, but
each of the two calls invokes the unmount executor once — two
invocations across the two calls, not at most one. -/
theorem unmount_twice_executor_twice (d : webdavfsDriver) (name : String)
    (v : webdavfsVolume) (hv : findVol d.volumes name = some v)
    (h1 : v.connections = 1) :
    (Unmount d name true).2 = .ok () ∧
    (Unmount (Unmount d name true).1 name true).2 = .ok () ∧
    connectionsOf (Unmount (Unmount d name true).1 name true).1 name = some 0 ∧
    (Unmount (Unmount d name true).1 name true).1.unmountCalls =
      d.unmountCalls + 2 := by
  have e1 := Unmount_ok_clamp hv (by omega)
  have hv1 : findVol (Unmount d name true).1.volumes name =
      some { v with connections := 0 } := by
    rw [e1]
    exact findVol_updateVol_self _ hv
  have e2 := Unmount_ok_clamp hv1 (by show (0 : Int) - 1 ≤ 0; omega)
  have hv2 : findVol (Unmount (Unmount d name true).1 name true).1.volumes name =
      some { v with connections := 0 } := by
    rw [e2]
    exact findVol_updateVol_self _ hv1
  refine ⟨by rw [e1], by rw [e2], ?_, ?_⟩
  · unfold connectionsOf
    rw [hv2]
    rfl
  · rw [e2]
    show (Unmount d name true).1.unmountCalls + 1 = d.unmountCalls + 2
    rw [e1]

/-- C2 counterexample: in the concrete run create, mount, unmount,
unmount (all executors succeeding) the final count is 0 but the unmount
executor has been invoked twice, not at most once. -/
theorem unmount_twice_cx :
    (runOps initDriver
      [.create "v" [("url", "https://h/p")], .mount "v" .notExistMkdirOk true,
       .unmount "v" true, .unmount "v" true]).unmountCalls = 2 ∧
    ¬ (runOps initDriver
      [.create "v" [("url", "https://h/p")], .mount "v" .notExistMkdirOk true,
       .unmount "v" true, .unmount "v" true]).unmountCalls ≤ 1 ∧
    connectionsOf (runOps initDriver
      [.create "v" [("url", "https://h/p")], .mount "v" .notExistMkdirOk true,
       .unmount "v" true, .unmount "v" true]) "v" = some 0 := by
  refine ⟨by decide, by decide, by decide⟩

/-- C2 witness: the amended theorem applied to the concrete mounted
state exD1 (refCount 1). -/
theorem unmount_twice_executor_twice_witness :
    (Unmount exD1 "v" true).2 = .ok () ∧
    (Unmount (Unmount exD1 "v" true).1 "v" true).2 = .ok () ∧
    connectionsOf (Unmount (Unmount exD1 "v" true).1 "v" true).1 "v" = some 0 ∧
    (Unmount (Unmount exD1 "v" true).1 "v" true).1.unmountCalls =
      exD1.unmountCalls + 2 :=
  unmount_twice_executor_twice exD1 "v" exV1 (by decide) (by decide)

/-- C3 (amended): an Unmount whose decremented count is at most 0 and
whose unmount executor fails returns the error and leaves the count at
the decremented value (old - 1) — the clamp to 0 happens only when the
executor succeeds, so the count is 0 exactly when it was 1 at entry. -/
theorem unmount_fail_leaves_decrement (d : webdavfsDriver) (name : String)
    (v : webdavfsVolume) (hv : findVol d.volumes name = some v)
    (hc : v.connections - 1 ≤ 0) :
    (Unmount d name false).2 = .error .unmountExecFailed ∧
    connectionsOf (Unmount d name false).1 name = some (v.connections - 1) ∧
    (Unmount d name false).1.unmountCalls = d.unmountCalls + 1 := by
  have e := Unmount_fail_eval hv hc
  have hv1 : findVol (Unmount d name false).1.volumes name =
      some { v with connections := v.connections - 1 } := by
    rw [e]
    exact findVol_updateVol_self _ hv
  refine ⟨by rw [e], ?_, by rw [e]⟩
  unfold connectionsOf
  rw [hv1]
  rfl

/-- C3 counterexample: on the freshly created volume (count 0) a failing
Unmount returns the error but leaves the count at -1, not at 0. -/
theorem unmount_fail_not_clamped_cx :
    (Unmount exD0 "v" false).2 = .error .unmountExecFailed ∧
    connectionsOf (Unmount exD0 "v" false).1 "v" = some (-1) ∧
    some (-1 : Int) ≠ some (0 : Int) :=
  ⟨by decide, by decide, by decide⟩

/-- C3 witness: the amended theorem applied to the mounted state exD1
(count 1), where the decremented value is 0. -/
theorem unmount_fail_leaves_decrement_witness :
    (Unmount exD1 "v" false).2 = .error .unmountExecFailed ∧
    connectionsOf (Unmount exD1 "v" false).1 "v" = some (exV1.connections - 1) ∧
    (Unmount exD1 "v" false).1.unmountCalls = exD1.unmountCalls + 1 :=
  unmount_fail_leaves_decrement exD1 "v" exV1 (by decide) (by decide)

/-- C4: (a) create with a valid url, Mount with usable directory and
succeeding executor, a second Mount (any filesystem/executor outcome)
and an Unmount leave the reference count at 1 with the mount executor
invoked exactly once; (b) every Mount call on a volume whose count is
already positive skips the directory block and the executor, increments
the count, and returns the mountpoint. -/
theorem mount_idempotent_reuse (d : webdavfsDriver) (name url : String)
    (fs1 fs2 : FsOutcome) (b2 b3 : Bool)
    (hurl : url ≠ "") (hok : urlParseOk url = true)
    (hfs : fs1 = .notExistMkdirOk ∨ fs1 = .existsDir)
    (d' : webdavfsDriver) (n' : String) (v' : webdavfsVolume)
    (fs' : FsOutcome) (b' : Bool)
    (hv' : findVol d'.volumes n' = some v') (hpos : 0 < v'.connections) :
    (connectionsOf (Unmount (Mount (Mount (Create d name [("url", url)]).1
        name fs1 true).1 name fs2 b2).1 name b3).1 name = some 1 ∧
     (Unmount (Mount (Mount (Create d name [("url", url)]).1
        name fs1 true).1 name fs2 b2).1 name b3).1.mountCalls =
       d.mountCalls + 1) ∧
    ((Mount d' n' fs' b').2 = .ok v'.Mountpoint ∧
     (Mount d' n' fs' b').1.mountCalls = d'.mountCalls ∧
     (Mount d' n' fs' b').1.fsChecks = d'.fsChecks ∧
     connectionsOf (Mount d' n' fs' b').1 n' = some (v'.connections + 1)) := by
  constructor
  · have hp : parseOpts emptyVolume [("url", url)] =
        .ok { emptyVolume with URL := url } := rfl
    have e0 := @Create_ok_eval d name [("url", url)] _ hp hurl hok
    have hv0 : findVol (Create d name [("url", url)]).1.volumes name =
        some { emptyVolume with
               URL := url,
               Mountpoint := filepathJoin d.root (MD5.md5Hex url) } := by
      rw [e0]
      exact findVol_insertVol_self _ _ _
    have e1 := Mount_first_ok_eval hv0 rfl hfs
    have hv1 : findVol (Mount (Create d name [("url", url)]).1 name fs1 true).1.volumes
        name = some { emptyVolume with
               URL := url,
               Mountpoint := filepathJoin d.root (MD5.md5Hex url),
               connections := 1 } := by
      rw [e1]
      exact findVol_updateVol_self _ hv0
    have e2 := @Mount_skip_eval _ _ _ fs2 b2 hv1 (by norm_num)
    have hv2 : findVol (Mount (Mount (Create d name [("url", url)]).1 name fs1
        true).1 name fs2 b2).1.volumes name =
        some { emptyVolume with
               URL := url,
               Mountpoint := filepathJoin d.root (MD5.md5Hex url),
               connections := 2 } := by
      rw [e2]
      exact findVol_updateVol_self _ hv1
    have e3 := @Unmount_pos_eval _ _ _ b3 hv2 (by norm_num)
    have hv3 : findVol (Unmount (Mount (Mount (Create d name [("url", url)]).1
        name fs1 true).1 name fs2 b2).1 name b3).1.volumes name =
        some { emptyVolume with
               URL := url,
               Mountpoint := filepathJoin d.root (MD5.md5Hex url),
               connections := 1 } := by
      rw [e3]
      exact findVol_updateVol_self _ hv2
    constructor
    · unfold connectionsOf
      rw [hv3]
      rfl
    · rw [e3]
      show (Mount (Mount (Create d name [("url", url)]).1 name fs1 true).1
          name fs2 b2).1.mountCalls = d.mountCalls + 1
      rw [e2]
      show (Mount (Create d name [("url", url)]).1 name fs1 true).1.mountCalls =
        d.mountCalls + 1
      rw [e1]
      show (Create d name [("url", url)]).1.mountCalls + 1 = d.mountCalls + 1
      rw [e0]
  · have e := @Mount_skip_eval _ _ _ fs' b' hv' (by omega)
    have hvn : findVol (Mount d' n' fs' b').1.volumes n' =
        some { v' with connections := v'.connections + 1 } := by
      rw [e]
      exact findVol_updateVol_self _ hv'
    refine ⟨by rw [e], by rw [e], by rw [e], ?_⟩
    unfold connectionsOf
    rw [hvn]
    rfl

/-- C4 witness: the sequence part run from the initial driver with url
"https://h/p", and the reuse part applied to the mounted state exD1. -/
theorem mount_idempotent_reuse_witness :
    (connectionsOf (Unmount (Mount (Mount (Create initDriver "v"
        [("url", "https://h/p")]).1 "v" .notExistMkdirOk true).1 "v"
        .existsDir false).1 "v" false).1 "v" = some 1 ∧
     (Unmount (Mount (Mount (Create initDriver "v"
        [("url", "https://h/p")]).1 "v" .notExistMkdirOk true).1 "v"
        .existsDir false).1 "v" false).1.mountCalls =
       initDriver.mountCalls + 1) ∧
    ((Mount exD1 "v" .lstatErr false).2 = .ok exV1.Mountpoint ∧
     (Mount exD1 "v" .lstatErr false).1.mountCalls = exD1.mountCalls ∧
     (Mount exD1 "v" .lstatErr false).1.fsChecks = exD1.fsChecks ∧
     connectionsOf (Mount exD1 "v" .lstatErr false).1 "v" =
       some (exV1.connections + 1)) :=
  mount_idempotent_reuse initDriver "v" "https://h/p" .notExistMkdirOk .existsDir
    false false (by decide) (by decide) (Or.inl rfl)
    exD1 "v" exV1 .lstatErr false (by decide) (by decide)

/-- C10: a Mount call on an existing volume whose count is negative
(reachable only after a failed unmount at count 0) skips the
directory check/creation and the mount executor, increments the count
by one, and returns the mountpoint as a success. -/
theorem mount_negative_count_skips (d : webdavfsDriver) (name : String)
    (v : webdavfsVolume) (fs : FsOutcome) (b : Bool)
    (hv : findVol d.volumes name = some v) (hneg : v.connections < 0) :
    (Mount d name fs b).2 = .ok v.Mountpoint ∧
    (Mount d name fs b).1.fsChecks = d.fsChecks ∧
    (Mount d name fs b).1.mountCalls = d.mountCalls ∧
    connectionsOf (Mount d name fs b).1 name = some (v.connections + 1) := by
  have e := @Mount_skip_eval _ _ _ fs b hv (by omega)
  have hvn : findVol (Mount d name fs b).1.volumes name =
      some { v with connections := v.connections + 1 } := by
    rw [e]
    exact findVol_updateVol_self _ hv
  refine ⟨by rw [e], by rw [e], by rw [e], ?_⟩
  unfold connectionsOf
  rw [hvn]
  rfl

/-- C10 witness: applied to the concrete state exDneg, where "v" has
count -1 after a failed unmount, with a failing filesystem and failing
executor outcome supplied (both are skipped). -/
theorem mount_negative_count_skips_witness :
    (Mount exDneg "v" .notExistMkdirFail false).2 = .ok exVneg.Mountpoint ∧
    (Mount exDneg "v" .notExistMkdirFail false).1.fsChecks = exDneg.fsChecks ∧
    (Mount exDneg "v" .notExistMkdirFail false).1.mountCalls = exDneg.mountCalls ∧
    connectionsOf (Mount exDneg "v" .notExistMkdirFail false).1 "v" =
      some (exVneg.connections + 1) :=
  mount_negative_count_skips exDneg "v" exVneg .notExistMkdirFail false
    (by decide) (by decide)

/-- C5: the option key "_netdev" named by the spec is rejected by Create
as an unknown option (the switch in main.go:480 matches the misspelling
"_netdav" instead, which is accepted and sets the Netdev flag) — the
code contradicts its own Netdev field and the "-o _netdev" argument
mountVolume emits. -/
theorem netdev_option_key_misspelled :
    (Create initDriver "v" [("url", "https://h/p"), ("_netdev", "")]).2
      = .error (.unknownOption "") ∧
    (Create initDriver "v" [("url", "https://h/p"), ("_netdav", "on")]).2
      = .ok () ∧
    Option.map (fun v => v.Netdev)
      (findVol (Create initDriver "v"
        [("url", "https://h/p"), ("_netdav", "on")]).1.volumes "v") = some true :=
  ⟨by decide, by decide, by decide⟩

/-- C6 (amended): a Create call whose name already exists in the
registry succeeds and silently overwrites the record: the new record is
built solely from the new options, with reference count 0. -/
theorem create_existing_overwrites (d : webdavfsDriver) (name : String)
    (vOld pv : webdavfsVolume) (opts : List (String × String))
    (hold : findVol d.volumes name = some vOld)
    (hp : parseOpts emptyVolume opts = .ok pv)
    (hurl : pv.URL ≠ "") (hok : urlParseOk pv.URL = true) :
    (Create d name opts).2 = .ok () ∧
    findVol (Create d name opts).1.volumes name =
      some { pv with Mountpoint := filepathJoin d.root (MD5.md5Hex pv.URL) } ∧
    pv.connections = 0 := by
  have e := @Create_ok_eval d name opts pv hp hurl hok
  refine ⟨by rw [e], ?_, parseOpts_connections hp⟩
  rw [e]
  exact findVol_insertVol_self _ _ _

/-- C6 counterexample: re-creating the mounted volume "v" (count 1)
succeeds instead of failing, and replaces the record: new URL, count
reset to 0. -/
theorem create_existing_overwrites_cx :
    (Create exD1 "v" [("url", "https://other/q")]).2 = .ok () ∧
    urlOf (Create exD1 "v" [("url", "https://other/q")]).1 "v" =
      some "https://other/q" ∧
    connectionsOf (Create exD1 "v" [("url", "https://other/q")]).1 "v" = some 0 ∧
    connectionsOf exD1 "v" = some 1 :=
  ⟨by decide, by decide, by decide, by decide⟩

/-- C6 witness: the amended theorem applied to the mounted state exD1,
overwriting "v" with a new url. -/
theorem create_existing_overwrites_witness :
    (Create exD1 "v" [("url", "https://other/q")]).2 = .ok () ∧
    findVol (Create exD1 "v" [("url", "https://other/q")]).1.volumes "v" =
      some { emptyVolume with
             URL := "https://other/q",
             Mountpoint :=
               filepathJoin exD1.root (MD5.md5Hex "https://other/q") } ∧
    ({ emptyVolume with URL := "https://other/q" } : webdavfsVolume).connections
      = 0 :=
  create_existing_overwrites exD1 "v" exV1
    { emptyVolume with URL := "https://other/q" }
    [("url", "https://other/q")] (by decide) rfl (by decide) (by decide)

/-- C7 (amended): Remove on an existing volume fails with the busy
error iff the reference count is nonzero at call time (not iff it is
strictly positive: a negative count, reachable after a failed unmount,
is also reported busy); when the count is 0 and the mountpoint deletion
succeeds, the record is deleted from the registry. -/
theorem remove_busy_iff_nonzero (d : webdavfsDriver) (name : String)
    (v : webdavfsVolume) (rmOk : Bool)
    (hv : findVol d.volumes name = some v)
    (hnd : (d.volumes.map Prod.fst).Nodup) :
    ((Remove d name rmOk).2 = .error (.volumeBusy name) ↔ v.connections ≠ 0) ∧
    (v.connections = 0 → rmOk = true →
      (Remove d name rmOk).2 = .ok () ∧
      findVol (Remove d name rmOk).1.volumes name = none) := by
  constructor
  · constructor
    · intro h
      by_contra hc
      have hc0 : v.connections = 0 := by omega
      cases rmOk with
      | false =>
        have e : Remove d name false = (d, .error .removeAllFailed) := by
          unfold Remove
          rw [hv]
          simp [hc0]
        rw [e] at h
        simp at h
      | true =>
        have e := Remove_ok_eval hv hc0
        rw [e] at h
        simp at h
    · intro hc
      have e := @Remove_busy_eval d name v rmOk hv hc
      rw [e]
  · intro hc hrm
    subst hrm
    have e := Remove_ok_eval hv hc
    refine ⟨by rw [e], ?_⟩
    rw [e]
    exact findVol_eraseVol_self hnd

/-- C7 counterexample: in the reachable state exDneg the volume "v" has
count -1 — not strictly positive — yet Remove fails with the busy
error, refuting the claimed "iff refCount > 0". -/
theorem remove_busy_on_negative_cx :
    connectionsOf exDneg "v" = some (-1) ∧
    ¬ ((0 : Int) < -1) ∧
    (Remove exDneg "v" true).2 = .error (.volumeBusy "v") :=
  ⟨by decide, by decide, by decide⟩

/-- C7 witness: the amended theorem applied to the mounted state exD1
(count 1, busy) with succeeding deletion. -/
theorem remove_busy_iff_nonzero_witness :
    ((Remove exD1 "v" true).2 = .error (.volumeBusy "v") ↔
      exV1.connections ≠ 0) ∧
    (exV1.connections = 0 → true = true →
      (Remove exD1 "v" true).2 = .ok () ∧
      findVol (Remove exD1 "v" true).1.volumes "v" = none) :=
  remove_busy_iff_nonzero exD1 "v" exV1 true (by decide) (by decide)

/-- C8: two successful Create calls under the same root that record the
same URL assign equal mountpoints, whatever the names and the other
options: the mountpoint is the URL's MD5 hex under the root. -/
theorem mountpoint_determined_by_url (d1 d2 : webdavfsDriver) (n1 n2 : String)
    (o1 o2 : List (String × String))
    (hroot : d1.root = d2.root)
    (h1 : (Create d1 n1 o1).2 = .ok ()) (h2 : (Create d2 n2 o2).2 = .ok ())
    (hu : urlOf (Create d1 n1 o1).1 n1 = urlOf (Create d2 n2 o2).1 n2) :
    mountpointOf (Create d1 n1 o1).1 n1 = mountpointOf (Create d2 n2 o2).1 n2 := by
  obtain ⟨p1, hp1, hu1, hk1, hvol1⟩ := Create_ok_shape h1
  obtain ⟨p2, hp2, hu2, hk2, hvol2⟩ := Create_ok_shape h2
  have f1 : findVol (Create d1 n1 o1).1.volumes n1 =
      some { p1 with Mountpoint := filepathJoin d1.root (MD5.md5Hex p1.URL) } := by
    rw [hvol1]
    exact findVol_insertVol_self _ _ _
  have f2 : findVol (Create d2 n2 o2).1.volumes n2 =
      some { p2 with Mountpoint := filepathJoin d2.root (MD5.md5Hex p2.URL) } := by
    rw [hvol2]
    exact findVol_insertVol_self _ _ _
  have u1 : urlOf (Create d1 n1 o1).1 n1 = some p1.URL := by
    unfold urlOf
    rw [f1]
    rfl
  have u2 : urlOf (Create d2 n2 o2).1 n2 = some p2.URL := by
    unfold urlOf
    rw [f2]
    rfl
  rw [u1, u2] at hu
  have hueq : p1.URL = p2.URL := Option.some.inj hu
  have m1 : mountpointOf (Create d1 n1 o1).1 n1 =
      some (filepathJoin d1.root (MD5.md5Hex p1.URL)) := by
    unfold mountpointOf
    rw [f1]
    rfl
  have m2 : mountpointOf (Create d2 n2 o2).1 n2 =
      some (filepathJoin d2.root (MD5.md5Hex p2.URL)) := by
    unfold mountpointOf
    rw [f2]
    rfl
  rw [m1, m2, hroot, hueq]

/-- C8 witness: two creates of different names and differing extra
options but the same url get the same mountpoint. -/
theorem mountpoint_determined_by_url_witness :
    mountpointOf (Create initDriver "a" [("url", "https://h/p")]).1 "a" =
      mountpointOf (Create initDriver "b"
        [("url", "https://h/p"), ("ro", "x"), ("uid", "7")]).1 "b" :=
  mountpoint_determined_by_url initDriver initDriver "a" "b"
    [("url", "https://h/p")] [("url", "https://h/p"), ("ro", "x"), ("uid", "7")]
    rfl (by decide) (by decide) (by decide)

/-- C9: serializing the volume map and deserializing it reconstructs a
map with the same names and identical values for every persisted field,
with every reference count reset to 0 (the unexported `connections` is
not marshalled and json.Unmarshal leaves it at its zero value). -/
theorem saveState_loadState_roundtrip (vols : List (String × webdavfsVolume)) :
    loadState (saveState vols) =
      vols.map (fun p => (p.1, { p.2 with connections := 0 })) := by
  induction vols with
  | nil => rfl
  | cons q t ih =>
    obtain ⟨n, v⟩ := q
    simp only [saveState, loadState, List.map_cons] at ih ⊢
    rw [ih]
    congr 1
